import Mathlib

/-!
Verification development for the music-discovery batch script
(`src/spotify_weekly.py`).  The script's pure aggregation pipeline is
shallowly embedded here: remote API results (album lists, track lists,
related-artist lists) are passed in as data, exceptions raised by the
remote client are modelled with `Except`, and the CPython
`datetime.strptime(s, "%Y-%m-%d")` parser is modelled character by
character, including its regex field patterns (`%Y` is exactly four
digits, `%m` matches `1[0-2]|0[1-9]|[1-9]`, `%d` matches
`3[01]|[12][0-9]|0[1-9]|[1-9]`), the full-consumption check, and the
calendar validation performed by the `datetime` constructor.
-/

set_option maxRecDepth 40000

namespace MusicDiscovery

/-- A calendar date as produced by `datetime.strptime` (time fields zero). -/
structure Date where
  year : Nat
  month : Nat
  day : Nat
deriving Repr, DecidableEq

/-- A `datetime` value: a date plus the time of day (in microseconds);
`datetime.now()` carries a time component, parsed dates have zero. -/
structure DateTime where
  date : Date
  microsOfDay : Nat
deriving Repr, DecidableEq

/-- Strict ordering on dates, as `datetime` compares its date fields. -/
def dateLt (a b : Date) : Bool :=
  decide (a.year < b.year ∨ (a.year = b.year ∧
    (a.month < b.month ∨ (a.month = b.month ∧ a.day < b.day))))

/-- Non-strict ordering on dates. -/
def dateLe (a b : Date) : Bool :=
  dateLt a b || decide (a = b)

/-- `datetime` comparison: lexicographic on (date, time-of-day). -/
def dtLe (a b : DateTime) : Bool :=
  dateLt a.date b.date ||
    (decide (a.date = b.date) && decide (a.microsOfDay ≤ b.microsOfDay))

/-- Numeric value of a digit character. -/
def dval (c : Char) : Nat := c.toNat - 48

/-- `%Y`: exactly four digit characters, returning the year value and
the unconsumed remainder. -/
def parse4Digits : List Char → Option (Nat × List Char)
  | a :: b :: c :: d :: rest =>
    if a.isDigit && b.isDigit && c.isDigit && d.isDigit then
      some (dval a * 1000 + dval b * 100 + dval c * 10 + dval d, rest)
    else none
  | _ => none

/-- `%m` alternative `1[0-2]`. -/
def monthAlt1 : List Char → List (Nat × List Char)
  | a :: c :: rest => if a = '1' ∧ '0' ≤ c ∧ c ≤ '2' then [(10 + dval c, rest)] else []
  | _ => []

/-- `%m` alternative `0[1-9]`. -/
def monthAlt2 : List Char → List (Nat × List Char)
  | a :: c :: rest => if a = '0' ∧ '1' ≤ c ∧ c ≤ '9' then [(dval c, rest)] else []
  | _ => []

/-- `%m` alternative `[1-9]`. -/
def monthAlt3 : List Char → List (Nat × List Char)
  | c :: rest => if '1' ≤ c ∧ c ≤ '9' then [(dval c, rest)] else []
  | [] => []

/-- All `%m` matches, in the regex alternation order `1[0-2]|0[1-9]|[1-9]`. -/
def monthAlts (cs : List Char) : List (Nat × List Char) :=
  monthAlt1 cs ++ monthAlt2 cs ++ monthAlt3 cs

/-- `%d` alternative `3[01]`. -/
def dayAlt1 : List Char → List (Nat × List Char)
  | a :: c :: rest => if a = '3' ∧ (c = '0' ∨ c = '1') then [(30 + dval c, rest)] else []
  | _ => []

/-- `%d` alternative `[12][0-9]`. -/
def dayAlt2 : List Char → List (Nat × List Char)
  | c :: d :: rest =>
    if (c = '1' ∨ c = '2') ∧ d.isDigit then [(10 * dval c + dval d, rest)] else []
  | _ => []

/-- `%d` alternative `0[1-9]`. -/
def dayAlt3 : List Char → List (Nat × List Char)
  | a :: c :: rest => if a = '0' ∧ '1' ≤ c ∧ c ≤ '9' then [(dval c, rest)] else []
  | _ => []

/-- `%d` alternative `[1-9]`. -/
def dayAlt4 : List Char → List (Nat × List Char)
  | c :: rest => if '1' ≤ c ∧ c ≤ '9' then [(dval c, rest)] else []
  | [] => []

/-- All `%d` matches, in the regex alternation order
`3[01]|[12][0-9]|0[1-9]|[1-9]`. -/
def dayAlts (cs : List Char) : List (Nat × List Char) :=
  dayAlt1 cs ++ dayAlt2 cs ++ dayAlt3 cs ++ dayAlt4 cs

/-- Match `%d` against the whole remaining input (strptime rejects
unconverted trailing data); regex backtracking over the alternatives is
the first match that also satisfies the continuation. -/
def parseDayEnd (cs : List Char) : Option Nat :=
  (dayAlts cs).findSome? (fun p => if p.2 = [] then some p.1 else none)

/-- Match `%m`, a literal `-`, then `%d` to the end of input, with
backtracking over the `%m` alternatives. -/
def parseMDEnd (cs : List Char) : Option (Nat × Nat) :=
  (monthAlts cs).findSome? (fun p =>
    match p.2 with
    | c :: rest => if c = '-' then (parseDayEnd rest).map (fun d => (p.1, d)) else none
    | [] => none)

/-- Gregorian leap-year rule used by `datetime`. -/
def isLeapYear (y : Nat) : Bool :=
  y % 4 == 0 && (y % 100 != 0 || y % 400 == 0)

/-- Days in a month, as validated by the `datetime` constructor. -/
def daysInMonth (y m : Nat) : Nat :=
  if m = 2 then (if isLeapYear y then 29 else 28)
  else if m = 4 ∨ m = 6 ∨ m = 9 ∨ m = 11 then 30
  else 31

/-- The rest of the `%Y-%m-%d` match after the year field: a literal
`-`, then month and day to the end of input, then the calendar
validation done by the `datetime` constructor. -/
def parseAfterYear (y : Nat) : List Char → Option Date
  | c :: rest =>
    if c = '-' then
      match parseMDEnd rest with
      | some (m, d) =>
        if 1 ≤ y ∧ d ≤ daysInMonth y m then some ⟨y, m, d⟩ else none
      | none => none
    else none
  | [] => none

/-- `datetime.strptime(s, "%Y-%m-%d")`: four-digit year, dash, month,
dash, day (month and day may be one or two digits), the whole string
consumed, and the resulting date must be a valid calendar date with
year at least `MINYEAR = 1`.  `none` stands for a raised `ValueError`
(regex mismatch, trailing data, or invalid calendar date alike). -/
def parseFullDate (s : String) : Option Date :=
  match parse4Digits s.data with
  | some (y, rest) => parseAfterYear y rest
  | none => none

/-- Outcome of the release-date handling at lines 129-138 of
`get_recent_releases`. -/
inductive NormResult where
  | ok (d : Date)
  | skip
  | raise
deriving Repr, DecidableEq

/-- Lines 129-138 of `get_recent_releases`: try the full parse; on
`ValueError`, a length-4 string is re-parsed with `-01-01` appended and
a length-7 string with `-01` appended (a `ValueError` raised by these
re-parses escapes, modelled as `raise`); any other length falls to
`continue` (modelled as `skip`). -/
def normalizeReleaseDate (s : String) : NormResult :=
  match parseFullDate s with
  | some d => NormResult.ok d
  | none =>
    if s.length = 4 then
      match parseFullDate (s ++ "-01-01") with
      | some d => NormResult.ok d
      | none => NormResult.raise
    else if s.length = 7 then
      match parseFullDate (s ++ "-01") with
      | some d => NormResult.ok d
      | none => NormResult.raise
    else NormResult.skip

/-- The standard zero-padded release-date formats the catalog emits:
`YYYY`, `YYYY-MM` (two-digit month `01`-`12`) or `YYYY-MM-DD`
(two-digit valid day), together with the date the script's
normalization assigns them (missing month and day default to `01`).
Strings of this family are exactly the ones on which sorting by the
raw string agrees with sorting by the normalized date. -/
def stdNorm (s : String) : Option Date :=
  match s.data with
  | [a, b, c, d] =>
    if a.isDigit && b.isDigit && c.isDigit && d.isDigit then
      if 1 ≤ dval a * 1000 + dval b * 100 + dval c * 10 + dval d then
        some ⟨dval a * 1000 + dval b * 100 + dval c * 10 + dval d, 1, 1⟩
      else none
    else none
  | [a, b, c, d, u, e, f] =>
    if a.isDigit && b.isDigit && c.isDigit && d.isDigit && decide (u = '-') &&
        e.isDigit && f.isDigit then
      if 1 ≤ dval a * 1000 + dval b * 100 + dval c * 10 + dval d ∧
          1 ≤ dval e * 10 + dval f ∧ dval e * 10 + dval f ≤ 12 then
        some ⟨dval a * 1000 + dval b * 100 + dval c * 10 + dval d,
          dval e * 10 + dval f, 1⟩
      else none
    else none
  | [a, b, c, d, u, e, f, v, g, k] =>
    if a.isDigit && b.isDigit && c.isDigit && d.isDigit && decide (u = '-') &&
        e.isDigit && f.isDigit && decide (v = '-') && g.isDigit && k.isDigit then
      if 1 ≤ dval a * 1000 + dval b * 100 + dval c * 10 + dval d ∧
          1 ≤ dval e * 10 + dval f ∧ dval e * 10 + dval f ≤ 12 ∧
          1 ≤ dval g * 10 + dval k ∧
          dval g * 10 + dval k ≤
            daysInMonth (dval a * 1000 + dval b * 100 + dval c * 10 + dval d)
              (dval e * 10 + dval f) then
        some ⟨dval a * 1000 + dval b * 100 + dval c * 10 + dval d,
          dval e * 10 + dval f, dval g * 10 + dval k⟩
      else none
    else none
  | _ => none

/-- One entry of an `album_tracks` response. -/
structure TrackItem where
  id : String
  name : String
  uri : String
deriving Repr, DecidableEq

/-- One entry of an `artist_albums` response, paired with the outcome
of the `album_tracks` call the script would make for it (`Except.error`
models that call raising). -/
structure Album where
  id : String
  name : String
  release_date : String
  tracksResult : Except Unit (List TrackItem)
deriving Repr

/-- One candidate artist, paired with the outcome of the
`artist_albums` call made for it (`Except.error` models the call
raising). -/
structure ArtistData where
  id : String
  name : String
  albumsResult : Except Unit (List Album)
deriving Repr

/-- The `track_info` dict built at lines 145-152. -/
structure Track where
  id : String
  name : String
  artist : String
  album : String
  release_date : String
  uri : String
deriving Repr, DecidableEq

/-- Lines 145-152: flatten one album track into a Track Record. -/
def trackRecord (artistName : String) (album : Album) (t : TrackItem) : Track :=
  ⟨t.id, t.name, artistName, album.name, album.release_date, t.uri⟩

/-- The album loop (lines 127-153) for one artist: each album's release
date is normalized; `skip` falls to the next album, `raise` aborts the
whole artist (the exception is caught by the per-artist handler at line
159, keeping the tracks already appended to the shared accumulator); a
qualifying album (`release_date >= cutoff_date`) has its tracks fetched
(a raising `album_tracks` call likewise aborts the artist) and appended. -/
def processAlbums (artistName : String) (cutoff : DateTime) :
    List Album → List Track → List Track
  | [], acc => acc
  | album :: rest, acc =>
    match normalizeReleaseDate album.release_date with
    | NormResult.raise => acc
    | NormResult.skip => processAlbums artistName cutoff rest acc
    | NormResult.ok d =>
      if dtLe cutoff ⟨d, 0⟩ then
        match album.tracksResult with
        | Except.error _ => acc
        | Except.ok ts =>
          processAlbums artistName cutoff rest
            (acc ++ ts.map (trackRecord artistName album))
      else processAlbums artistName cutoff rest acc

/-- One iteration of the artist loop (lines 117-161): a raising
`artist_albums` call is caught by the per-artist handler and leaves the
accumulator unchanged. -/
def scanArtist (cutoff : DateTime) (acc : List Track) (a : ArtistData) : List Track :=
  match a.albumsResult with
  | Except.error _ => acc
  | Except.ok albums => processAlbums a.name cutoff albums acc

/-- The `recent_tracks` list after the artist loop. -/
def recentTracksRaw (cutoff : DateTime) (artists : List ArtistData) : List Track :=
  artists.foldl (scanArtist cutoff) []

/-- `str.lower()` of one code point (ASCII case folding, the fragment
exercised by these artist and track names). -/
def lowerCode (n : Nat) : Nat := if 65 ≤ n ∧ n ≤ 90 then n + 32 else n

/-- `str.lower()` as a code-point sequence; Python compares the strings
of the dedup key by exactly these sequences. -/
def lowerCodes (s : String) : List Nat := s.data.map (fun c => lowerCode c.toNat)

/-- Line 168: the deduplication key `(name.lower(), artist.lower())`. -/
def trackKey (t : Track) : List Nat × List Nat := (lowerCodes t.name, lowerCodes t.artist)

/-- Lines 163-171: keep a track iff its key is not in the `seen_tracks`
set, inserting the key otherwise. -/
def dedupGo : List (List Nat × List Nat) → List Track → List Track
  | _, [] => []
  | seen, t :: ts =>
    if trackKey t ∈ seen then dedupGo seen ts
    else t :: dedupGo (trackKey t :: seen) ts

/-- The `unique_tracks` list (dedup with an initially empty seen set). -/
def dedupTracks (l : List Track) : List Track := dedupGo [] l

/-- Python string `<=`: lexicographic comparison of code-point sequences. -/
def natListLe : List Nat → List Nat → Bool
  | [], _ => true
  | _ :: _, [] => false
  | a :: xs, b :: ys =>
    if a < b then true else if b < a then false else natListLe xs ys

/-- Code points of a string, the values Python compares strings by. -/
def strCodes (s : String) : List Nat := s.data.map Char.toNat

/-- The descending comparison used by
`unique_tracks.sort(key=lambda x: x["release_date"], reverse=True)`:
`a` may precede `b` iff `b`'s raw date string is `<=` `a`'s. -/
def dateDesc (a b : Track) : Bool :=
  natListLe (strCodes b.release_date) (strCodes a.release_date)

/-- `dateDesc` as a relation, for the sort lemmas. -/
def trackDescRel (a b : Track) : Prop := dateDesc a b = true

instance instDecTrackDescRel : DecidableRel trackDescRel :=
  fun a b => instDecidableEqBool (dateDesc a b) true

/-- Line 174: `list.sort` with a key and `reverse=True` is a stable
descending sort; embedded as the stable insertion sort on the
descending relation (ties keep their scan order in both). -/
def sortTracks (l : List Track) : List Track :=
  l.insertionSort trackDescRel

/-- `get_recent_releases` (lines 110-177) as a function of the cutoff
datetime (`now - timedelta(days=days_lookback)`), the configured
`max_tracks`, and the candidate artists with their API responses:
flatten qualifying releases, deduplicate, sort descending by raw date
string, truncate. -/
def get_recent_releases (cutoff : DateTime) (maxTracks : Nat)
    (artists : List ArtistData) : List Track :=
  (sortTracks (dedupTracks (recentTracksRaw cutoff artists))).take maxTracks

/-- A related-artist entry as used by `get_similar_artists`. -/
structure SimpleArtist where
  id : String
  name : String
deriving Repr, DecidableEq

/-- The inner loop of `get_similar_artists` (lines 96-99): append a
related artist iff its id is not in `seen_ids` and the accumulated list
is still below `max_similar`, inserting the id when appending. -/
def addRelated (maxSimilar : Nat) (st : List SimpleArtist × List String)
    (arts : List SimpleArtist) : List SimpleArtist × List String :=
  arts.foldl
    (fun st a =>
      if a.id ∉ st.2 ∧ st.1.length < maxSimilar then (st.1 ++ [a], a.id :: st.2)
      else st)
    st

/-- One iteration of the source-artist loop (lines 92-105): a raising
`artist_related_artists` call is caught and skipped (`continue`). -/
def similarStep (related : String → Except Unit (List SimpleArtist))
    (maxSimilar : Nat) (st : List SimpleArtist × List String) (aid : String) :
    List SimpleArtist × List String :=
  match related aid with
  | Except.error _ => st
  | Except.ok arts => addRelated maxSimilar st arts

/-- `get_similar_artists` (lines 82-108) as a function of the
related-artists oracle: `seen_ids` starts as the set of all input ids,
and only the first `min(10, len(artist_ids))` source artists are
queried. -/
def get_similar_artists (related : String → Except Unit (List SimpleArtist))
    (artist_ids : List String) (maxSimilar : Nat) : List SimpleArtist :=
  ((artist_ids.take (min 10 artist_ids.length)).foldl
    (similarStep related maxSimilar) ([], artist_ids)).1

/-- Invariant threaded through the `get_similar_artists` loops: every
accumulated artist's id is in `seen_ids`, `seen_ids` still contains all
input ids, the accumulated ids are pairwise distinct and disjoint from
the input ids, and the accumulated count is within the maximum. -/
def simInv (maxSimilar : Nat) (ids : List String)
    (st : List SimpleArtist × List String) : Prop :=
  (∀ a ∈ st.1, a.id ∈ st.2) ∧ (∀ i ∈ ids, i ∈ st.2) ∧
    (st.1.map SimpleArtist.id).Nodup ∧ (∀ a ∈ st.1, a.id ∉ ids) ∧
    st.1.length ≤ maxSimilar

/-- The batching loop of `create_playlist` (lines 209-211):
`for i in range(0, len(track_uris), 100): batch = track_uris[i:i+100]`,
written with a step counter bounded by the list length (each step
consumes at least one element, so `fuel = length` suffices). -/
def chunksFuel : Nat → List String → List (List String)
  | 0, _ => []
  | _ + 1, [] => []
  | fuel + 1, x :: rest => ((x :: rest).take 100) :: chunksFuel fuel ((x :: rest).drop 100)

/-- The successive 100-element batches passed to `playlist_add_items`. -/
def chunks100 (l : List String) : List (List String) := chunksFuel l.length l

/-- The observable remote-write behaviour of `create_playlist`: whether
`user_playlist_create` is called, and the batches passed to
`playlist_add_items`, in order. -/
structure PublishCalls where
  created : Bool
  appendCalls : List (List String)
deriving Repr, DecidableEq

/-- `create_playlist` (lines 179-211), success path: the empty-input
guard at line 181 returns before any API call; otherwise the playlist
is created and the track URIs are appended in batches of 100. -/
def create_playlist (tracks : List Track) : PublishCalls :=
  if tracks.isEmpty then ⟨false, []⟩
  else ⟨true, chunks100 (tracks.map (fun t => t.uri))⟩

/-- Outcome of step 5 of `run` (lines 265-273): the publisher calls
made, and whether the no-new-releases message was printed instead. -/
structure RunPublishOutcome where
  calls : PublishCalls
  reportedNoNewReleases : Bool
deriving Repr, DecidableEq

/-- Step 5 of `run`: `create_playlist` is invoked only when
`recent_tracks` is non-empty; otherwise the run reports that there are
no new releases and ends normally. -/
def runPublishPhase (recentTracks : List Track) : RunPublishOutcome :=
  if recentTracks.isEmpty then ⟨⟨false, []⟩, true⟩
  else ⟨create_playlist recentTracks, false⟩

/-- Modelled from the spec (Deduplicator, section 4.5): keep "the first
occurrence encountered in scan order" of each case-insensitive key —
the head of the list followed by the first occurrences of the rest with
all later duplicates of the head's key removed.  Used as the
specification-side definition that the code's dedup is compared with. -/
def firstOccurrences : List Track → List Track
  | [] => []
  | t :: ts => t :: firstOccurrences (ts.filter (fun u => trackKey u ≠ trackKey t))
termination_by l => l.length
decreasing_by
  simp only [List.length_cons]
  exact Nat.lt_succ_of_le (List.length_filter_le _ _)

/-- A run cutoff of midnight, 2024-01-01. -/
def cutoff0 : DateTime := ⟨⟨2024, 1, 1⟩, 0⟩

/-- An album whose release-date string has length 8 yet parses. -/
def albumLen8 : Album := ⟨"alb8", "Album8", "2024-3-5", Except.ok [⟨"t8", "Song8", "uri:8"⟩]⟩

/-- The Track Record `albumLen8` flattens to. -/
def trackLen8 : Track := ⟨"t8", "Song8", "Artist8", "Album8", "2024-3-5", "uri:8"⟩

/-- An artist whose only album is `albumLen8`. -/
def artistLen8 : ArtistData := ⟨"ar8", "Artist8", Except.ok [albumLen8]⟩

/-- A December album with a fully padded date string. -/
def albumDec : Album := ⟨"albD", "AlbumD", "2024-12-25", Except.ok [⟨"tD", "SongD", "uri:D"⟩]⟩

/-- The Track Record `albumDec` flattens to (owner `Artist3`). -/
def trackDec : Track := ⟨"tD", "SongD", "Artist3", "AlbumD", "2024-12-25", "uri:D"⟩

/-- The Track Record `albumLen8` flattens to (owner `Artist3`). -/
def trackMar3 : Track := ⟨"t8", "Song8", "Artist3", "Album8", "2024-3-5", "uri:8"⟩

/-- An artist holding an unpadded March album and a padded December one. -/
def artistC3data : ArtistData := ⟨"ar3", "Artist3", Except.ok [albumLen8, albumDec]⟩

/-- April, March and February albums with padded date strings. -/
def albApr : Album := ⟨"aA", "AlbA", "2024-04-01", Except.ok [⟨"tA", "SongA", "uri:A"⟩]⟩

/-- March album, padded date string. -/
def albMar : Album := ⟨"aM", "AlbM", "2024-03-15", Except.ok [⟨"tM", "SongM", "uri:M"⟩]⟩

/-- February album, padded date string. -/
def albFeb : Album := ⟨"aF", "AlbF", "2024-02-01", Except.ok [⟨"tF", "SongF", "uri:F"⟩]⟩

/-- An artist with the April, March and February albums. -/
def artistC4data : ArtistData := ⟨"ar4", "Artist4", Except.ok [albApr, albMar, albFeb]⟩

/-- Artist A with one qualifying album. -/
def artistA : ArtistData := ⟨"arA", "ArtistA", Except.ok [⟨"aa", "AlbumA", "2024-03-15", Except.ok [⟨"ta", "SongOfA", "uri:a"⟩]⟩]⟩

/-- Artist B, whose `artist_albums` call raises. -/
def artistBerr : ArtistData := ⟨"arB", "ArtistB", Except.error ()⟩

/-- Artist C with one qualifying album. -/
def artistCok : ArtistData := ⟨"arC", "ArtistC", Except.ok [⟨"ac", "AlbumC", "2024-02-01", Except.ok [⟨"tc", "SongOfC", "uri:c"⟩]⟩]⟩

/-- A sample track for the batching instance. -/
def trackC8unit : Track := ⟨"t", "Song", "Art", "Alb", "2024-03-15", "uri:x"⟩

/-- 150 qualifying tracks (max-tracks config raised above default). -/
def tracksC8 : List Track := List.replicate 150 trackC8unit

/-- An album that is skipped silently (length-5 date string). -/
def albumSkip : Album := ⟨"aS", "AlbS", "24-03", Except.ok [⟨"tS", "SongS", "uri:S"⟩]⟩

/-- An album whose padded re-parse raises (length-4 non-year string). -/
def albumRaise : Album := ⟨"aR", "AlbR", "abcd", Except.ok [⟨"tR", "SongR", "uri:R"⟩]⟩

/-- A related-artists oracle: `f1` relates to one fresh artist, one
already-followed artist and one repeat; `f2`'s lookup raises. -/
def relOracle : String → Except Unit (List SimpleArtist) :=
  fun s =>
    if s = "f1" then Except.ok [⟨"s1", "Sim1"⟩, ⟨"f2", "Foll2"⟩, ⟨"s2", "Sim2"⟩]
    else if s = "f3" then Except.ok [⟨"s1", "Sim1"⟩, ⟨"s3", "Sim3"⟩]
    else Except.error ()

example : normalizeReleaseDate "2024" = NormResult.ok ⟨2024, 1, 1⟩ := by decide
example : normalizeReleaseDate "2024-03" = NormResult.ok ⟨2024, 3, 1⟩ := by decide
example : normalizeReleaseDate "2024-03-15" = NormResult.ok ⟨2024, 3, 15⟩ := by decide
example : normalizeReleaseDate "2024-3-5" = NormResult.ok ⟨2024, 3, 5⟩ := by decide
example : normalizeReleaseDate "abcd" = NormResult.raise := by decide
example : normalizeReleaseDate "abcde" = NormResult.skip := by decide
example : normalizeReleaseDate "2024-02-30" = NormResult.skip := by decide
example : normalizeReleaseDate "2024-13-05" = NormResult.skip := by decide

example : get_recent_releases cutoff0 50 [artistLen8] = [trackLen8] := by decide

example : get_recent_releases cutoff0 50 [artistC3data] = [trackMar3, trackDec] := by decide

example :
    (get_recent_releases cutoff0 50 [artistC4data]).map Track.release_date =
      ["2024-04-01", "2024-03-15", "2024-02-01"] := by decide

example :
    (get_recent_releases cutoff0 50 [artistA, artistBerr, artistCok]).map Track.uri =
      ["uri:a", "uri:c"] := by decide

example :
    (get_similar_artists relOracle ["f1", "f2", "f3"] 20).map SimpleArtist.id =
      ["s1", "s2", "s3"] := by decide

example : (create_playlist tracksC8).appendCalls.map List.length = [100, 50] := by decide

theorem natListLe_total : ∀ xs ys : List Nat, natListLe xs ys = true ∨ natListLe ys xs = true := by
  intro xs
  induction xs with
  | nil => intro ys; left; rfl
  | cons a xs ih =>
    intro ys
    cases ys with
    | nil => right; rfl
    | cons b ys =>
      simp only [natListLe]
      rcases Nat.lt_trichotomy a b with h | h | h
      · left; simp [h]
      · subst h
        simp only [Nat.lt_irrefl, if_false]
        exact ih ys
      · right; simp [h]

theorem natListLe_trans :
    ∀ xs ys zs : List Nat, natListLe xs ys = true → natListLe ys zs = true →
      natListLe xs zs = true := by
  intro xs
  induction xs with
  | nil => intro ys zs _ _; rfl
  | cons a xs ih =>
    intro ys zs h1 h2
    cases ys with
    | nil => simp [natListLe] at h1
    | cons b ys =>
      cases zs with
      | nil => simp [natListLe] at h2
      | cons c zs =>
        simp only [natListLe] at h1 h2 ⊢
        by_cases hab : a < b
        · by_cases hbc : b < c
          · simp [Nat.lt_trans hab hbc]
          · by_cases hcb : c < b
            · simp only [hbc, if_false, hcb, if_true] at h2
              exact Bool.noConfusion h2
            · have : b = c := Nat.le_antisymm (Nat.le_of_not_lt hcb) (Nat.le_of_not_lt hbc)
              subst this
              simp [hab]
        · by_cases hba : b < a
          · simp only [hab, if_false, hba, if_true] at h1
            exact Bool.noConfusion h1
          · have : a = b := Nat.le_antisymm (Nat.le_of_not_lt hba) (Nat.le_of_not_lt hab)
            subst this
            by_cases hbc : a < c
            · simp [hbc]
            · by_cases hcb : c < a
              · simp only [hbc, if_false, hcb, if_true] at h2
                exact Bool.noConfusion h2
              · have : a = c := Nat.le_antisymm (Nat.le_of_not_lt hcb) (Nat.le_of_not_lt hbc)
                subst this
                simp only [Nat.lt_irrefl, if_false] at h1 h2 ⊢
                exact ih ys zs h1 h2

theorem trackDescRel_total : ∀ a b : Track, trackDescRel a b ∨ trackDescRel b a := by
  intro a b
  exact natListLe_total (strCodes b.release_date) (strCodes a.release_date)

theorem trackDescRel_trans :
    ∀ a b c : Track, trackDescRel a b → trackDescRel b c → trackDescRel a c := by
  intro a b c h1 h2
  exact natListLe_trans _ _ _ h2 h1

theorem sortTracks_pairwise (l : List Track) : (sortTracks l).Pairwise trackDescRel := by
  haveI : IsTotal Track trackDescRel := ⟨trackDescRel_total⟩
  haveI : IsTrans Track trackDescRel := ⟨trackDescRel_trans⟩
  exact List.sorted_insertionSort trackDescRel l

theorem sortTracks_perm (l : List Track) : List.Perm (sortTracks l) l :=
  List.perm_insertionSort trackDescRel l

theorem dedupGo_eq_firstOccurrences (l : List Track) :
    ∀ seen, dedupGo seen l =
      firstOccurrences (l.filter (fun t => decide (trackKey t ∉ seen))) := by
  induction l with
  | nil => intro seen; rw [List.filter_nil, dedupGo, firstOccurrences]
  | cons t ts ih =>
    intro seen
    by_cases h : trackKey t ∈ seen
    · have hf : List.filter (fun t => decide (trackKey t ∉ seen)) (t :: ts) =
          List.filter (fun t => decide (trackKey t ∉ seen)) ts := by
        simp [List.filter_cons, h]
      rw [dedupGo, if_pos h, hf]
      exact ih seen
    · have hf : List.filter (fun t => decide (trackKey t ∉ seen)) (t :: ts) =
          t :: List.filter (fun t => decide (trackKey t ∉ seen)) ts := by
        simp [List.filter_cons, h]
      rw [dedupGo, if_neg h, hf, firstOccurrences, ih (trackKey t :: seen),
        List.filter_filter]
      have harg :
          List.filter (fun a => decide (trackKey a ≠ trackKey t) &&
            decide (trackKey a ∉ seen)) ts =
          List.filter (fun u => decide (trackKey u ∉ trackKey t :: seen)) ts := by
        apply List.filter_congr
        intro u _
        by_cases h1 : trackKey u = trackKey t
        · simp [h1]
        · by_cases h2 : trackKey u ∈ seen <;> simp [h1, h2]
      rw [harg]

theorem dedupGo_pairwise (l : List Track) :
    ∀ seen, (dedupGo seen l).Pairwise (fun a b => trackKey a ≠ trackKey b) ∧
      ∀ t ∈ dedupGo seen l, trackKey t ∉ seen := by
  induction l with
  | nil => intro seen; exact ⟨List.Pairwise.nil, by intro t ht; cases ht⟩
  | cons t ts ih =>
    intro seen
    by_cases h : trackKey t ∈ seen
    · simp only [dedupGo, if_pos h]
      exact ih seen
    · simp only [dedupGo, if_neg h]
      obtain ⟨hpw, hmem⟩ := ih (trackKey t :: seen)
      refine ⟨List.Pairwise.cons ?_ hpw, ?_⟩
      · intro u hu
        have := hmem u hu
        simp only [List.mem_cons, not_or] at this
        exact fun he => this.1 he.symm
      · intro u hu
        rcases List.mem_cons.mp hu with he | hu2
        · subst he; exact h
        · have := hmem u hu2
          simp only [List.mem_cons, not_or] at this
          exact this.2

theorem dedupTracks_eq_firstOccurrences (l : List Track) :
    dedupTracks l = firstOccurrences l := by
  rw [dedupTracks, dedupGo_eq_firstOccurrences l []]
  congr 1
  rw [List.filter_eq_self]
  intro t _
  simp

theorem dedupTracks_pairwise (l : List Track) :
    (dedupTracks l).Pairwise (fun a b => trackKey a ≠ trackKey b) :=
  (dedupGo_pairwise l []).1

theorem get_recent_releases_key_pairwise (cutoff : DateTime) (maxTracks : Nat)
    (artists : List ArtistData) :
    (get_recent_releases cutoff maxTracks artists).Pairwise
      (fun a b => trackKey a ≠ trackKey b) := by
  have h1 : (sortTracks (dedupTracks (recentTracksRaw cutoff artists))).Pairwise
      (fun a b => trackKey a ≠ trackKey b) :=
    (List.Perm.pairwise_iff (fun h he => h he.symm) (sortTracks_perm _)).mpr
      (dedupTracks_pairwise (recentTracksRaw cutoff artists))
  exact h1.sublist (List.take_sublist maxTracks _)

theorem processAlbums_append_raise (n : String) (c : DateTime) (b : Album)
    (hb : normalizeReleaseDate b.release_date = NormResult.raise) :
    ∀ xs ys acc, processAlbums n c (xs ++ b :: ys) acc = processAlbums n c xs acc := by
  intro xs
  induction xs with
  | nil =>
    intro ys acc
    simp only [List.nil_append, processAlbums, hb]
  | cons a xs ih =>
    intro ys acc
    simp only [List.cons_append, processAlbums]
    cases h : normalizeReleaseDate a.release_date with
    | ok d =>
      by_cases hq : dtLe c ⟨d, 0⟩ = true
      · simp only [hq, if_true]
        cases a.tracksResult with
        | error e => rfl
        | ok ts => exact ih ys _
      · simp only [hq, if_false]
        exact ih ys acc
    | skip => exact ih ys acc
    | raise => rfl

theorem processAlbums_append_skip (n : String) (c : DateTime) (b : Album)
    (hb : normalizeReleaseDate b.release_date = NormResult.skip) :
    ∀ xs ys acc, processAlbums n c (xs ++ b :: ys) acc = processAlbums n c (xs ++ ys) acc := by
  intro xs
  induction xs with
  | nil =>
    intro ys acc
    simp only [List.nil_append, processAlbums, hb]
  | cons a xs ih =>
    intro ys acc
    simp only [List.cons_append, processAlbums]
    cases h : normalizeReleaseDate a.release_date with
    | ok d =>
      by_cases hq : dtLe c ⟨d, 0⟩ = true
      · simp only [hq, if_true]
        cases a.tracksResult with
        | error e => rfl
        | ok ts => exact ih ys _
      · simp only [hq, if_false]
        exact ih ys acc
    | skip => exact ih ys acc
    | raise => rfl

theorem chunksFuel_nil (fuel : Nat) : chunksFuel fuel [] = [] := by
  cases fuel <;> rfl

theorem chunksFuel_join :
    ∀ (fuel : Nat) (l : List String), l.length ≤ fuel → (chunksFuel fuel l).flatten = l := by
  intro fuel
  induction fuel with
  | zero =>
    intro l h
    have : l = [] := List.eq_nil_of_length_eq_zero (Nat.le_zero.mp h)
    subst this; rfl
  | succ fuel ih =>
    intro l h
    cases l with
    | nil => rfl
    | cons x rest =>
      rw [chunksFuel, List.flatten_cons, ih ((x :: rest).drop 100) ?_,
        List.take_append_drop]
      have hlen : ((x :: rest).drop 100).length = (x :: rest).length - 100 :=
        List.length_drop 100 (x :: rest)
      rw [hlen]
      simp only [List.length_cons] at h ⊢
      omega

theorem chunksFuel_length :
    ∀ (fuel : Nat) (l : List String), l.length ≤ fuel → l ≠ [] →
      (chunksFuel fuel l).length = (l.length + 99) / 100 := by
  intro fuel
  induction fuel with
  | zero =>
    intro l h hne
    exact absurd (List.eq_nil_of_length_eq_zero (Nat.le_zero.mp h)) hne
  | succ fuel ih =>
    intro l h hne
    cases l with
    | nil => exact absurd rfl hne
    | cons x rest =>
      rw [chunksFuel, List.length_cons]
      by_cases hd : (x :: rest).drop 100 = []
      · rw [hd, chunksFuel_nil]
        have h100 : (x :: rest).length ≤ 100 := by
          have := List.length_drop 100 (x :: rest)
          rw [hd] at this
          simp only [List.length_nil] at this
          omega
        simp only [List.length_cons] at h100 ⊢
        simp only [List.length_nil]
        omega
      · have hdlen : ((x :: rest).drop 100).length = (x :: rest).length - 100 :=
          List.length_drop 100 (x :: rest)
        have h100 : 100 < (x :: rest).length := by
          rcases Nat.lt_or_ge 100 (x :: rest).length with hlt | hge
          · exact hlt
          · exact absurd (by rw [← List.length_eq_zero, hdlen]; omega) hd
        rw [ih ((x :: rest).drop 100) (by rw [hdlen]; simp only [List.length_cons] at h ⊢; omega) hd,
          hdlen]
        omega

theorem chunksFuel_mem_le100 :
    ∀ (fuel : Nat) (l : List String) (b : List String), b ∈ chunksFuel fuel l →
      b.length ≤ 100 := by
  intro fuel
  induction fuel with
  | zero => intro l b hb; cases hb
  | succ fuel ih =>
    intro l b hb
    cases l with
    | nil => cases hb
    | cons x rest =>
      rw [chunksFuel] at hb
      rcases List.mem_cons.mp hb with he | hm
      · subst he
        rw [List.length_take]
        exact Nat.min_le_left _ _
      · exact ih _ b hm

theorem chunks100_join (l : List String) : (chunks100 l).flatten = l :=
  chunksFuel_join l.length l (Nat.le_refl _)

theorem chunks100_length (l : List String) (h : l ≠ []) :
    (chunks100 l).length = (l.length + 99) / 100 :=
  chunksFuel_length l.length l (Nat.le_refl _) h

theorem chunks100_of_length_150 (l : List String) (h : l.length = 150) :
    (chunks100 l).map List.length = [100, 50] := by
  cases l with
  | nil => simp at h
  | cons x rest =>
    have hd1 : ((x :: rest).drop 100).length = 50 := by
      rw [List.length_drop, h]
    rw [chunks100, h]
    rw [chunksFuel]
    cases hd : (x :: rest).drop 100 with
    | nil => rw [hd] at hd1; simp at hd1
    | cons y t =>
      rw [hd] at hd1
      rw [chunksFuel]
      have hd2 : ((y :: t).drop 100) = [] := by
        rw [← List.length_eq_zero, List.length_drop]
        omega
      rw [hd2, chunksFuel_nil]
      simp only [List.map_cons, List.map_nil, List.length_take, h, hd1]
      decide

theorem addRelated_inv (maxSimilar : Nat) (ids : List String) :
    ∀ (arts : List SimpleArtist) (st : List SimpleArtist × List String),
      simInv maxSimilar ids st → simInv maxSimilar ids (addRelated maxSimilar st arts) := by
  intro arts
  induction arts with
  | nil => intro st h; exact h
  | cons a arts ih =>
    intro st h
    rw [addRelated, List.foldl_cons]
    by_cases hc : a.id ∉ st.2 ∧ st.1.length < maxSimilar
    · rw [if_pos hc]
      apply ih
      obtain ⟨h1, h2, h3, h4, h5⟩ := h
      refine ⟨?_, ?_, ?_, ?_, ?_⟩
      · intro x hx
        rcases List.mem_append.mp hx with hx | hx
        · exact List.mem_cons_of_mem _ (h1 x hx)
        · rcases List.mem_singleton.mp hx with rfl
          exact List.mem_cons_self _ _
      · intro i hi
        exact List.mem_cons_of_mem _ (h2 i hi)
      · rw [List.map_append, List.nodup_append]
        refine ⟨h3, List.nodup_singleton _, ?_⟩
        intro x hx hx2
        rcases List.mem_singleton.mp hx2 with rfl
        rcases List.mem_map.mp hx with ⟨u, hu, hux⟩
        exact hc.1 (hux ▸ h1 u hu)
      · intro x hx
        rcases List.mem_append.mp hx with hx | hx
        · exact h4 x hx
        · rcases List.mem_singleton.mp hx with rfl
          intro hmem
          exact hc.1 (h2 _ hmem)
      · rw [List.length_append, List.length_singleton]
        omega
    · rw [if_neg hc]
      exact ih st h

theorem similarFold_inv (related : String → Except Unit (List SimpleArtist))
    (maxSimilar : Nat) (ids : List String) :
    ∀ (l : List String) (st : List SimpleArtist × List String),
      simInv maxSimilar ids st →
      simInv maxSimilar ids (l.foldl (similarStep related maxSimilar) st) := by
  intro l
  induction l with
  | nil => intro st h; exact h
  | cons aid l ih =>
    intro st h
    rw [List.foldl_cons]
    apply ih
    rw [similarStep]
    cases related aid with
    | error e => exact h
    | ok arts => exact addRelated_inv maxSimilar ids arts st h

theorem get_similar_artists_inv (related : String → Except Unit (List SimpleArtist))
    (ids : List String) (maxSimilar : Nat) :
    simInv maxSimilar ids
      (((ids.take (min 10 ids.length)).foldl (similarStep related maxSimilar)
        ([], ids))) := by
  apply similarFold_inv
  refine ⟨?_, ?_, List.nodup_nil, ?_, Nat.zero_le _⟩
  · intro x hx; cases hx
  · intro i hi; exact hi
  · intro x hx; cases hx

theorem similarFold_congr (related related2 : String → Except Unit (List SimpleArtist))
    (maxSimilar : Nat) :
    ∀ (l : List String) (st : List SimpleArtist × List String),
      (∀ aid ∈ l, related aid = related2 aid) →
      l.foldl (similarStep related maxSimilar) st =
        l.foldl (similarStep related2 maxSimilar) st := by
  intro l
  induction l with
  | nil => intro st _; rfl
  | cons aid l ih =>
    intro st hag
    rw [List.foldl_cons, List.foldl_cons]
    have hstep : similarStep related maxSimilar st aid =
        similarStep related2 maxSimilar st aid := by
      rw [similarStep, similarStep, hag aid (List.mem_cons_self _ _)]
    rw [hstep]
    exact ih _ (fun a ha => hag a (List.mem_cons_of_mem _ ha))

theorem charList_shape4 (l : List Char) (h : l.length = 4) :
    ∃ a b c d, l = [a, b, c, d] := by
  obtain ⟨a, t1, rfl⟩ := List.exists_of_length_succ l h
  simp only [List.length_cons] at h
  obtain ⟨b, t2, rfl⟩ := List.exists_of_length_succ t1 (show t1.length = 3 by omega)
  simp only [List.length_cons] at h
  obtain ⟨c, t3, rfl⟩ := List.exists_of_length_succ t2 (show t2.length = 2 by omega)
  simp only [List.length_cons] at h
  obtain ⟨d, t4, rfl⟩ := List.exists_of_length_succ t3 (show t3.length = 1 by omega)
  simp only [List.length_cons] at h
  have : t4 = [] := List.eq_nil_of_length_eq_zero (by omega)
  subst this
  exact ⟨a, b, c, d, rfl⟩

theorem charList_shape7 (l : List Char) (h : l.length = 7) :
    ∃ a b c d u e f, l = [a, b, c, d, u, e, f] := by
  obtain ⟨a, t1, rfl⟩ := List.exists_of_length_succ l h
  simp only [List.length_cons] at h
  obtain ⟨b, t2, rfl⟩ := List.exists_of_length_succ t1 (show t1.length = 6 by omega)
  simp only [List.length_cons] at h
  obtain ⟨c, t3, rfl⟩ := List.exists_of_length_succ t2 (show t2.length = 5 by omega)
  simp only [List.length_cons] at h
  obtain ⟨d, t4, rfl⟩ := List.exists_of_length_succ t3 (show t3.length = 4 by omega)
  simp only [List.length_cons] at h
  obtain ⟨u, t5, rfl⟩ := List.exists_of_length_succ t4 (show t4.length = 3 by omega)
  simp only [List.length_cons] at h
  obtain ⟨e, t6, rfl⟩ := List.exists_of_length_succ t5 (show t5.length = 2 by omega)
  simp only [List.length_cons] at h
  obtain ⟨f, t7, rfl⟩ := List.exists_of_length_succ t6 (show t6.length = 1 by omega)
  simp only [List.length_cons] at h
  have : t7 = [] := List.eq_nil_of_length_eq_zero (by omega)
  subst this
  exact ⟨a, b, c, d, u, e, f, rfl⟩

theorem parseMDEnd_two (f g : Char) : parseMDEnd [f, g] = none := by
  rw [parseMDEnd]
  apply List.findSome?_eq_none_iff.mpr
  intro p hp
  simp only [monthAlts, monthAlt1, monthAlt2, monthAlt3, List.mem_append] at hp
  rcases hp with (hp | hp) | hp
  · split_ifs at hp with hc
    · rcases List.mem_singleton.mp hp with rfl
      rfl
    · cases hp
  · split_ifs at hp with hc
    · rcases List.mem_singleton.mp hp with rfl
      rfl
    · cases hp
  · split_ifs at hp with hc
    · rcases List.mem_singleton.mp hp with rfl
      show (if g = '-' then (parseDayEnd []).map (fun d => (dval f, d)) else none) = none
      split_ifs with hg
      · rfl
      · rfl
    · cases hp

theorem parseAfterYear_nil (y : Nat) : parseAfterYear y [] = none := rfl

theorem parseAfterYear_three (y : Nat) (u e f : Char) :
    parseAfterYear y [u, e, f] = none := by
  rw [parseAfterYear, parseMDEnd_two e f]
  split_ifs with hu
  · rfl
  · rfl

theorem parseFullDate_len4 (s : String) (h : s.length = 4) : parseFullDate s = none := by
  obtain ⟨a, b, c, d, hdata⟩ := charList_shape4 s.data h
  rw [parseFullDate, hdata]
  by_cases hd4 : (a.isDigit && b.isDigit && c.isDigit && d.isDigit) = true
  · have h4 : parse4Digits [a, b, c, d] =
        some (dval a * 1000 + dval b * 100 + dval c * 10 + dval d, []) := by
      rw [parse4Digits, if_pos hd4]
    rw [h4]
    exact parseAfterYear_nil _
  · have h4 : parse4Digits [a, b, c, d] = none := by
      rw [parse4Digits, if_neg hd4]
    rw [h4]

theorem normalize_parse_some (s : String) (d : Date) (h : parseFullDate s = some d) :
    normalizeReleaseDate s = NormResult.ok d := by
  rw [normalizeReleaseDate, h]

theorem normalize_none_body (s : String) (hs : parseFullDate s = none) :
    normalizeReleaseDate s =
      (if s.length = 4 then
        match parseFullDate (s ++ "-01-01") with
        | some d => NormResult.ok d
        | none => NormResult.raise
      else if s.length = 7 then
        match parseFullDate (s ++ "-01") with
        | some d => NormResult.ok d
        | none => NormResult.raise
      else NormResult.skip) := by
  rw [normalizeReleaseDate, hs]

theorem normalize_len4_some (s : String) (h4 : s.length = 4) (d : Date)
    (h : parseFullDate (s ++ "-01-01") = some d) :
    normalizeReleaseDate s = NormResult.ok d := by
  rw [normalize_none_body s (parseFullDate_len4 s h4), if_pos h4, h]

theorem normalize_len4_none (s : String) (h4 : s.length = 4)
    (h : parseFullDate (s ++ "-01-01") = none) :
    normalizeReleaseDate s = NormResult.raise := by
  rw [normalize_none_body s (parseFullDate_len4 s h4), if_pos h4, h]

theorem parseFullDate_len7 (s : String) (h : s.length = 7) : parseFullDate s = none := by
  obtain ⟨a, b, c, d, u, e, f, hdata⟩ := charList_shape7 s.data h
  rw [parseFullDate, hdata]
  by_cases hd4 : (a.isDigit && b.isDigit && c.isDigit && d.isDigit) = true
  · have h4 : parse4Digits [a, b, c, d, u, e, f] =
        some (dval a * 1000 + dval b * 100 + dval c * 10 + dval d, [u, e, f]) := by
      rw [parse4Digits, if_pos hd4]
    rw [h4]
    exact parseAfterYear_three _ u e f
  · have h4 : parse4Digits [a, b, c, d, u, e, f] = none := by
      rw [parse4Digits, if_neg hd4]
    rw [h4]

theorem normalize_len7_some (s : String) (h7 : s.length = 7) (d : Date)
    (h : parseFullDate (s ++ "-01") = some d) :
    normalizeReleaseDate s = NormResult.ok d := by
  have h4ne : ¬s.length = 4 := by omega
  rw [normalize_none_body s (parseFullDate_len7 s h7), if_neg h4ne, if_pos h7, h]

theorem normalize_len7_none (s : String) (h7 : s.length = 7)
    (h : parseFullDate (s ++ "-01") = none) :
    normalizeReleaseDate s = NormResult.raise := by
  have h4ne : ¬s.length = 4 := by omega
  rw [normalize_none_body s (parseFullDate_len7 s h7), if_neg h4ne, if_pos h7, h]

theorem normalize_other_skip (s : String) (hs : parseFullDate s = none)
    (h4ne : s.length ≠ 4) (h7ne : s.length ≠ 7) :
    normalizeReleaseDate s = NormResult.skip := by
  rw [normalize_none_body s hs, if_neg h4ne, if_neg h7ne]

theorem isDigit_toNat (c : Char) (h : c.isDigit = true) :
    c.toNat = 48 + dval c ∧ dval c ≤ 9 := by
  simp only [Char.isDigit, Bool.and_eq_true, decide_eq_true_eq] at h
  obtain ⟨h1, h2⟩ := h
  have hb1 : 48 ≤ c.toNat := h1
  have hb2 : c.toNat ≤ 57 := h2
  simp only [dval]
  omega

theorem char_of_toNat (e c : Char) (h : e.toNat = c.toNat) : e = c :=
  Char.ext (UInt32.toNat.inj h)

theorem natListLe_cons_same (x : Nat) (t t2 : List Nat) :
    natListLe (x :: t) (x :: t2) = natListLe t t2 := by
  rw [natListLe]
  simp

theorem natListLe_digits2 (e f e2 f2 : Char) (t t2 : List Nat)
    (he : e.isDigit = true) (hf : f.isDigit = true)
    (he2 : e2.isDigit = true) (hf2 : f2.isDigit = true)
    (h : natListLe (e.toNat :: f.toNat :: t) (e2.toNat :: f2.toNat :: t2) = true) :
    10 * dval e + dval f < 10 * dval e2 + dval f2 ∨
      (dval e = dval e2 ∧ dval f = dval f2 ∧ natListLe t t2 = true) := by
  obtain ⟨hee, heb⟩ := isDigit_toNat e he
  obtain ⟨hfe, hfb⟩ := isDigit_toNat f hf
  obtain ⟨he2e, he2b⟩ := isDigit_toNat e2 he2
  obtain ⟨hf2e, hf2b⟩ := isDigit_toNat f2 hf2
  rw [natListLe] at h
  by_cases h1 : e.toNat < e2.toNat
  · left; omega
  · rw [if_neg h1] at h
    by_cases h2 : e2.toNat < e.toNat
    · rw [if_pos h2] at h
      exact Bool.noConfusion h
    · rw [if_neg h2] at h
      rw [natListLe] at h
      by_cases h3 : f.toNat < f2.toNat
      · left; omega
      · rw [if_neg h3] at h
        by_cases h4 : f2.toNat < f.toNat
        · rw [if_pos h4] at h
          exact Bool.noConfusion h
        · rw [if_neg h4] at h
          right
          refine ⟨by omega, by omega, h⟩

theorem date_eq_of_fields (x y : Date) (hy : x.year = y.year)
    (hm : x.month = y.month) (hd : x.day = y.day) : x = y := by
  cases x; cases y; simp_all

theorem dateLe_intro (x y : Date)
    (h : x.year < y.year ∨ (x.year = y.year ∧
      (x.month < y.month ∨ (x.month = y.month ∧ x.day ≤ y.day)))) :
    dateLe x y = true := by
  rw [dateLe, dateLt]
  rcases h with h | ⟨hy, h⟩
  · simp [h]
  · rcases h with h | ⟨hm, hd⟩
    · simp [hy, h]
    · rcases Nat.lt_or_ge x.day y.day with hlt | hge
      · simp [hy, hm, hlt]
      · have hde : x.day = y.day := Nat.le_antisymm hd hge
        have hxy : x = y := date_eq_of_fields x y hy hm hde
        simp [hxy]

theorem dateLe_mk_intro (y2 m2 dd2 y1 m1 dd1 : Nat)
    (h : y2 < y1 ∨ (y2 = y1 ∧ (m2 < m1 ∨ (m2 = m1 ∧ dd2 ≤ dd1)))) :
    dateLe ⟨y2, m2, dd2⟩ ⟨y1, m1, dd1⟩ = true :=
  dateLe_intro ⟨y2, m2, dd2⟩ ⟨y1, m1, dd1⟩ h

theorem daysInMonth_pos (y m : Nat) : 1 ≤ daysInMonth y m := by
  rw [daysInMonth]
  split_ifs <;> omega

theorem daysInMonth_le31 (y m : Nat) : daysInMonth y m ≤ 31 := by
  rw [daysInMonth]
  split_ifs <;> omega

theorem stdNorm_inv (s : String) (dt : Date) (h : stdNorm s = some dt) :
    (∃ a b c d, s.data = [a, b, c, d] ∧
      a.isDigit = true ∧ b.isDigit = true ∧ c.isDigit = true ∧ d.isDigit = true ∧
      dt = ⟨dval a * 1000 + dval b * 100 + dval c * 10 + dval d, 1, 1⟩ ∧
      1 ≤ dval a * 1000 + dval b * 100 + dval c * 10 + dval d) ∨
    (∃ a b c d e f, s.data = [a, b, c, d, '-', e, f] ∧
      a.isDigit = true ∧ b.isDigit = true ∧ c.isDigit = true ∧ d.isDigit = true ∧
      e.isDigit = true ∧ f.isDigit = true ∧
      dt = ⟨dval a * 1000 + dval b * 100 + dval c * 10 + dval d,
        dval e * 10 + dval f, 1⟩ ∧
      1 ≤ dval a * 1000 + dval b * 100 + dval c * 10 + dval d ∧
      1 ≤ dval e * 10 + dval f ∧ dval e * 10 + dval f ≤ 12) ∨
    (∃ a b c d e f g k, s.data = [a, b, c, d, '-', e, f, '-', g, k] ∧
      a.isDigit = true ∧ b.isDigit = true ∧ c.isDigit = true ∧ d.isDigit = true ∧
      e.isDigit = true ∧ f.isDigit = true ∧ g.isDigit = true ∧ k.isDigit = true ∧
      dt = ⟨dval a * 1000 + dval b * 100 + dval c * 10 + dval d,
        dval e * 10 + dval f, dval g * 10 + dval k⟩ ∧
      1 ≤ dval a * 1000 + dval b * 100 + dval c * 10 + dval d ∧
      1 ≤ dval e * 10 + dval f ∧ dval e * 10 + dval f ≤ 12 ∧
      1 ≤ dval g * 10 + dval k ∧
      dval g * 10 + dval k ≤
        daysInMonth (dval a * 1000 + dval b * 100 + dval c * 10 + dval d)
          (dval e * 10 + dval f)) := by
  unfold stdNorm at h
  split at h
  next a b c d heq =>
    by_cases hdig : (a.isDigit && b.isDigit && c.isDigit && d.isDigit) = true
    · rw [if_pos hdig] at h
      by_cases hy : 1 ≤ dval a * 1000 + dval b * 100 + dval c * 10 + dval d
      · rw [if_pos hy] at h
        injection h with h2
        simp only [Bool.and_eq_true] at hdig
        exact Or.inl ⟨a, b, c, d, heq, hdig.1.1.1, hdig.1.1.2, hdig.1.2, hdig.2,
          h2.symm, hy⟩
      · rw [if_neg hy] at h
        exact Option.noConfusion h
    · rw [if_neg hdig] at h
      exact Option.noConfusion h
  next a b c d u e f heq =>
    by_cases hdig : (a.isDigit && b.isDigit && c.isDigit && d.isDigit &&
        decide (u = '-') && e.isDigit && f.isDigit) = true
    · rw [if_pos hdig] at h
      simp only [Bool.and_eq_true, decide_eq_true_eq] at hdig
      obtain ⟨⟨⟨⟨⟨⟨ha, hb⟩, hc⟩, hd⟩, hu⟩, he⟩, hf⟩ := hdig
      subst hu
      by_cases hr : 1 ≤ dval a * 1000 + dval b * 100 + dval c * 10 + dval d ∧
          1 ≤ dval e * 10 + dval f ∧ dval e * 10 + dval f ≤ 12
      · rw [if_pos hr] at h
        injection h with h2
        exact Or.inr (Or.inl ⟨a, b, c, d, e, f, heq, ha, hb, hc, hd, he, hf,
          h2.symm, hr.1, hr.2.1, hr.2.2⟩)
      · rw [if_neg hr] at h
        exact Option.noConfusion h
    · rw [if_neg hdig] at h
      exact Option.noConfusion h
  next a b c d u e f v g k heq =>
    by_cases hdig : (a.isDigit && b.isDigit && c.isDigit && d.isDigit &&
        decide (u = '-') && e.isDigit && f.isDigit && decide (v = '-') &&
        g.isDigit && k.isDigit) = true
    · rw [if_pos hdig] at h
      simp only [Bool.and_eq_true, decide_eq_true_eq] at hdig
      obtain ⟨⟨⟨⟨⟨⟨⟨⟨⟨ha, hb⟩, hc⟩, hd⟩, hu⟩, he⟩, hf⟩, hv⟩, hg⟩, hk⟩ := hdig
      subst hu
      subst hv
      by_cases hr : 1 ≤ dval a * 1000 + dval b * 100 + dval c * 10 + dval d ∧
          1 ≤ dval e * 10 + dval f ∧ dval e * 10 + dval f ≤ 12 ∧
          1 ≤ dval g * 10 + dval k ∧
          dval g * 10 + dval k ≤
            daysInMonth (dval a * 1000 + dval b * 100 + dval c * 10 + dval d)
              (dval e * 10 + dval f)
      · rw [if_pos hr] at h
        injection h with h2
        exact Or.inr (Or.inr ⟨a, b, c, d, e, f, g, k, heq, ha, hb, hc, hd, he, hf,
          hg, hk, h2.symm, hr.1, hr.2.1, hr.2.2.1, hr.2.2.2.1, hr.2.2.2.2⟩)
      · rw [if_neg hr] at h
        exact Option.noConfusion h
    · rw [if_neg hdig] at h
      exact Option.noConfusion h
  next =>
    exact Option.noConfusion h

theorem natListLe_cons_nil (x : Nat) (t : List Nat) :
    natListLe (x :: t) [] = false := rfl

theorem stdLex_mono (s1 s2 : String) (d1 d2 : Date)
    (h1 : stdNorm s1 = some d1) (h2 : stdNorm s2 = some d2)
    (hle : natListLe (strCodes s2) (strCodes s1) = true) :
    dateLe d2 d1 = true := by
  rcases stdNorm_inv s2 d2 h2 with h2inv | h2inv | h2inv
  · obtain ⟨a2, b2, c2, e2, heq2, ha2, hb2, hc2, he2, hdt2, hy2⟩ := h2inv
    subst hdt2
    rcases stdNorm_inv s1 d1 h1 with h1inv | h1inv | h1inv
    · obtain ⟨a1, b1, c1, e1, heq1, ha1, hb1, hc1, he1, hdt1, hy1⟩ := h1inv
      subst hdt1
      rw [strCodes, strCodes, heq1, heq2] at hle
      simp only [List.map_cons, List.map_nil] at hle
      obtain ⟨_, hC2⟩ := isDigit_toNat c2 hc2
      obtain ⟨_, hE2⟩ := isDigit_toNat e2 he2
      rcases natListLe_digits2 a2 b2 a1 b1 _ _ ha2 hb2 ha1 hb1 hle with
        hlt | ⟨hqa, hqb, hle2⟩
      · apply dateLe_mk_intro
        omega
      · rcases natListLe_digits2 c2 e2 c1 e1 _ _ hc2 he2 hc1 he1 hle2 with
          hlt2 | ⟨hqc, hqe, _⟩
        · apply dateLe_mk_intro
          omega
        · apply dateLe_mk_intro
          omega
    · obtain ⟨a1, b1, c1, e1, m1, n1, heq1, ha1, hb1, hc1, he1, hm1, hn1, hdt1,
        hy1, hma1, hmb1⟩ := h1inv
      subst hdt1
      rw [strCodes, strCodes, heq1, heq2] at hle
      simp only [List.map_cons, List.map_nil] at hle
      obtain ⟨_, hC2⟩ := isDigit_toNat c2 hc2
      obtain ⟨_, hE2⟩ := isDigit_toNat e2 he2
      rcases natListLe_digits2 a2 b2 a1 b1 _ _ ha2 hb2 ha1 hb1 hle with
        hlt | ⟨hqa, hqb, hle2⟩
      · apply dateLe_mk_intro
        omega
      · rcases natListLe_digits2 c2 e2 c1 e1 _ _ hc2 he2 hc1 he1 hle2 with
          hlt2 | ⟨hqc, hqe, _⟩
        · apply dateLe_mk_intro
          omega
        · apply dateLe_mk_intro
          omega
    · obtain ⟨a1, b1, c1, e1, m1, n1, g1, k1, heq1, ha1, hb1, hc1, he1, hm1, hn1,
        hg1, hk1, hdt1, hy1, hma1, hmb1, hda1, hdb1⟩ := h1inv
      subst hdt1
      rw [strCodes, strCodes, heq1, heq2] at hle
      simp only [List.map_cons, List.map_nil] at hle
      obtain ⟨_, hC2⟩ := isDigit_toNat c2 hc2
      obtain ⟨_, hE2⟩ := isDigit_toNat e2 he2
      rcases natListLe_digits2 a2 b2 a1 b1 _ _ ha2 hb2 ha1 hb1 hle with
        hlt | ⟨hqa, hqb, hle2⟩
      · apply dateLe_mk_intro
        omega
      · rcases natListLe_digits2 c2 e2 c1 e1 _ _ hc2 he2 hc1 he1 hle2 with
          hlt2 | ⟨hqc, hqe, _⟩
        · apply dateLe_mk_intro
          omega
        · apply dateLe_mk_intro
          omega
  · obtain ⟨a2, b2, c2, e2, m2, n2, heq2, ha2, hb2, hc2, he2, hm2, hn2, hdt2,
      hy2, hma2, hmb2⟩ := h2inv
    subst hdt2
    rcases stdNorm_inv s1 d1 h1 with h1inv | h1inv | h1inv
    · obtain ⟨a1, b1, c1, e1, heq1, ha1, hb1, hc1, he1, hdt1, hy1⟩ := h1inv
      subst hdt1
      rw [strCodes, strCodes, heq1, heq2] at hle
      simp only [List.map_cons, List.map_nil] at hle
      obtain ⟨_, hC2⟩ := isDigit_toNat c2 hc2
      obtain ⟨_, hE2⟩ := isDigit_toNat e2 he2
      rcases natListLe_digits2 a2 b2 a1 b1 _ _ ha2 hb2 ha1 hb1 hle with
        hlt | ⟨hqa, hqb, hle2⟩
      · apply dateLe_mk_intro
        omega
      · rcases natListLe_digits2 c2 e2 c1 e1 _ _ hc2 he2 hc1 he1 hle2 with
          hlt2 | ⟨hqc, hqe, hle3⟩
        · apply dateLe_mk_intro
          omega
        · rw [natListLe_cons_nil] at hle3
          exact Bool.noConfusion hle3
    · obtain ⟨a1, b1, c1, e1, m1, n1, heq1, ha1, hb1, hc1, he1, hm1, hn1, hdt1,
        hy1, hma1, hmb1⟩ := h1inv
      subst hdt1
      rw [strCodes, strCodes, heq1, heq2] at hle
      simp only [List.map_cons, List.map_nil] at hle
      obtain ⟨_, hC2⟩ := isDigit_toNat c2 hc2
      obtain ⟨_, hE2⟩ := isDigit_toNat e2 he2
      rcases natListLe_digits2 a2 b2 a1 b1 _ _ ha2 hb2 ha1 hb1 hle with
        hlt | ⟨hqa, hqb, hle2⟩
      · apply dateLe_mk_intro
        omega
      · rcases natListLe_digits2 c2 e2 c1 e1 _ _ hc2 he2 hc1 he1 hle2 with
          hlt2 | ⟨hqc, hqe, hle3⟩
        · apply dateLe_mk_intro
          omega
        · rw [natListLe_cons_same] at hle3
          rcases natListLe_digits2 m2 n2 m1 n1 _ _ hm2 hn2 hm1 hn1 hle3 with
            hltm | ⟨hqm, hqn, _⟩
          · apply dateLe_mk_intro
            omega
          · apply dateLe_mk_intro
            omega
    · obtain ⟨a1, b1, c1, e1, m1, n1, g1, k1, heq1, ha1, hb1, hc1, he1, hm1, hn1,
        hg1, hk1, hdt1, hy1, hma1, hmb1, hda1, hdb1⟩ := h1inv
      subst hdt1
      rw [strCodes, strCodes, heq1, heq2] at hle
      simp only [List.map_cons, List.map_nil] at hle
      obtain ⟨_, hC2⟩ := isDigit_toNat c2 hc2
      obtain ⟨_, hE2⟩ := isDigit_toNat e2 he2
      rcases natListLe_digits2 a2 b2 a1 b1 _ _ ha2 hb2 ha1 hb1 hle with
        hlt | ⟨hqa, hqb, hle2⟩
      · apply dateLe_mk_intro
        omega
      · rcases natListLe_digits2 c2 e2 c1 e1 _ _ hc2 he2 hc1 he1 hle2 with
          hlt2 | ⟨hqc, hqe, hle3⟩
        · apply dateLe_mk_intro
          omega
        · rw [natListLe_cons_same] at hle3
          rcases natListLe_digits2 m2 n2 m1 n1 _ _ hm2 hn2 hm1 hn1 hle3 with
            hltm | ⟨hqm, hqn, _⟩
          · apply dateLe_mk_intro
            omega
          · apply dateLe_mk_intro
            omega
  · obtain ⟨a2, b2, c2, e2, m2, n2, g2, k2, heq2, ha2, hb2, hc2, he2, hm2, hn2,
      hg2, hk2, hdt2, hy2, hma2, hmb2, hda2, hdb2⟩ := h2inv
    subst hdt2
    rcases stdNorm_inv s1 d1 h1 with h1inv | h1inv | h1inv
    · obtain ⟨a1, b1, c1, e1, heq1, ha1, hb1, hc1, he1, hdt1, hy1⟩ := h1inv
      subst hdt1
      rw [strCodes, strCodes, heq1, heq2] at hle
      simp only [List.map_cons, List.map_nil] at hle
      obtain ⟨_, hC2⟩ := isDigit_toNat c2 hc2
      obtain ⟨_, hE2⟩ := isDigit_toNat e2 he2
      rcases natListLe_digits2 a2 b2 a1 b1 _ _ ha2 hb2 ha1 hb1 hle with
        hlt | ⟨hqa, hqb, hle2⟩
      · apply dateLe_mk_intro
        omega
      · rcases natListLe_digits2 c2 e2 c1 e1 _ _ hc2 he2 hc1 he1 hle2 with
          hlt2 | ⟨hqc, hqe, hle3⟩
        · apply dateLe_mk_intro
          omega
        · rw [natListLe_cons_nil] at hle3
          exact Bool.noConfusion hle3
    · obtain ⟨a1, b1, c1, e1, m1, n1, heq1, ha1, hb1, hc1, he1, hm1, hn1, hdt1,
        hy1, hma1, hmb1⟩ := h1inv
      subst hdt1
      rw [strCodes, strCodes, heq1, heq2] at hle
      simp only [List.map_cons, List.map_nil] at hle
      obtain ⟨_, hC2⟩ := isDigit_toNat c2 hc2
      obtain ⟨_, hE2⟩ := isDigit_toNat e2 he2
      rcases natListLe_digits2 a2 b2 a1 b1 _ _ ha2 hb2 ha1 hb1 hle with
        hlt | ⟨hqa, hqb, hle2⟩
      · apply dateLe_mk_intro
        omega
      · rcases natListLe_digits2 c2 e2 c1 e1 _ _ hc2 he2 hc1 he1 hle2 with
          hlt2 | ⟨hqc, hqe, hle3⟩
        · apply dateLe_mk_intro
          omega
        · rw [natListLe_cons_same] at hle3
          rcases natListLe_digits2 m2 n2 m1 n1 _ _ hm2 hn2 hm1 hn1 hle3 with
            hltm | ⟨hqm, hqn, hle4⟩
          · apply dateLe_mk_intro
            omega
          · rw [natListLe_cons_nil] at hle4
            exact Bool.noConfusion hle4
    · obtain ⟨a1, b1, c1, e1, m1, n1, g1, k1, heq1, ha1, hb1, hc1, he1, hm1, hn1,
        hg1, hk1, hdt1, hy1, hma1, hmb1, hda1, hdb1⟩ := h1inv
      subst hdt1
      rw [strCodes, strCodes, heq1, heq2] at hle
      simp only [List.map_cons, List.map_nil] at hle
      obtain ⟨_, hC2⟩ := isDigit_toNat c2 hc2
      obtain ⟨_, hE2⟩ := isDigit_toNat e2 he2
      rcases natListLe_digits2 a2 b2 a1 b1 _ _ ha2 hb2 ha1 hb1 hle with
        hlt | ⟨hqa, hqb, hle2⟩
      · apply dateLe_mk_intro
        omega
      · rcases natListLe_digits2 c2 e2 c1 e1 _ _ hc2 he2 hc1 he1 hle2 with
          hlt2 | ⟨hqc, hqe, hle3⟩
        · apply dateLe_mk_intro
          omega
        · rw [natListLe_cons_same] at hle3
          rcases natListLe_digits2 m2 n2 m1 n1 _ _ hm2 hn2 hm1 hn1 hle3 with
            hltm | ⟨hqm, hqn, hle4⟩
          · apply dateLe_mk_intro
            omega
          · rw [natListLe_cons_same] at hle4
            rcases natListLe_digits2 g2 k2 g1 k1 _ _ hg2 hk2 hg1 hk1 hle4 with
              hltd | ⟨hqg, hqk, _⟩
            · apply dateLe_mk_intro
              omega
            · apply dateLe_mk_intro
              omega

theorem char_le_of_toNat_le (x y : Char) (h : x.toNat ≤ y.toNat) : x ≤ y := h

theorem char_eq_digit (e : Char) (he : e.isDigit = true) (n : Nat)
    (hn : dval e = n) : e.toNat = 48 + n := by
  obtain ⟨h1, _⟩ := isDigit_toNat e he
  omega

theorem parseDayEnd_std (g k : Char) (hg : g.isDigit = true) (hk : k.isDigit = true)
    (hd1 : 1 ≤ dval g * 10 + dval k) (hd2 : dval g * 10 + dval k ≤ 31) :
    parseDayEnd [g, k] = some (dval g * 10 + dval k) := by
  obtain ⟨hgE, hgB⟩ := isDigit_toNat g hg
  obtain ⟨hkE, hkB⟩ := isDigit_toNat k hk
  have c0 : ('0' : Char).toNat = 48 := rfl
  have c1 : ('1' : Char).toNat = 49 := rfl
  have c2 : ('2' : Char).toNat = 50 := rfl
  have c3 : ('3' : Char).toNat = 51 := rfl
  have c9 : ('9' : Char).toNat = 57 := rfl
  have hgcase : dval g = 0 ∨ dval g = 1 ∨ dval g = 2 ∨ dval g = 3 := by omega
  rcases hgcase with hg0 | hg1 | hg2 | hg3
  · have hgc : g = '0' :=
      char_of_toNat g '0' (by rw [char_eq_digit g hg 0 hg0]; rfl)
    subst hgc
    rw [parseDayEnd, dayAlts, dayAlt1, dayAlt2, dayAlt3, dayAlt4,
      if_neg (fun hcon => absurd hcon.1 (by decide)),
      if_neg (fun hcon => by rcases hcon.1 with h | h <;> exact absurd h (by decide)),
      if_pos ⟨rfl, char_le_of_toNat_le '1' k (by omega),
        char_le_of_toNat_le k '9' (by omega)⟩,
      if_neg (fun hcon => absurd hcon.1 (by decide))]
    simp only [List.nil_append, List.append_nil, List.findSome?]
    norm_num [hg0]
  · have hgc : g = '1' :=
      char_of_toNat g '1' (by rw [char_eq_digit g hg 1 hg1]; rfl)
    subst hgc
    rw [parseDayEnd, dayAlts, dayAlt1, dayAlt2, dayAlt3, dayAlt4,
      if_neg (fun hcon => absurd hcon.1 (by decide)),
      if_pos ⟨Or.inl rfl, hk⟩,
      if_neg (fun hcon => absurd hcon.1 (by decide)),
      if_pos ⟨char_le_of_toNat_le '1' '1' (by omega),
        char_le_of_toNat_le '1' '9' (by omega)⟩]
    simp only [List.nil_append, List.append_nil, List.cons_append, List.findSome?]
    norm_num [hg1]
  · have hgc : g = '2' :=
      char_of_toNat g '2' (by rw [char_eq_digit g hg 2 hg2]; rfl)
    subst hgc
    rw [parseDayEnd, dayAlts, dayAlt1, dayAlt2, dayAlt3, dayAlt4,
      if_neg (fun hcon => absurd hcon.1 (by decide)),
      if_pos ⟨Or.inr rfl, hk⟩,
      if_neg (fun hcon => absurd hcon.1 (by decide)),
      if_pos ⟨char_le_of_toNat_le '1' '2' (by omega),
        char_le_of_toNat_le '2' '9' (by omega)⟩]
    simp only [List.nil_append, List.append_nil, List.cons_append, List.findSome?]
    norm_num [hg2]
  · have hgc : g = '3' :=
      char_of_toNat g '3' (by rw [char_eq_digit g hg 3 hg3]; rfl)
    subst hgc
    have hkcase : dval k = 0 ∨ dval k = 1 := by omega
    have hkor : k = '0' ∨ k = '1' := by
      rcases hkcase with hk0 | hk1
      · exact Or.inl (char_of_toNat k '0' (by rw [char_eq_digit k hk 0 hk0]; rfl))
      · exact Or.inr (char_of_toNat k '1' (by rw [char_eq_digit k hk 1 hk1]; rfl))
    rw [parseDayEnd, dayAlts, dayAlt1, dayAlt2, dayAlt3, dayAlt4,
      if_pos ⟨rfl, hkor⟩,
      if_neg (fun hcon => by rcases hcon.1 with h | h <;> exact absurd h (by decide)),
      if_neg (fun hcon => absurd hcon.1 (by decide)),
      if_pos ⟨char_le_of_toNat_le '1' '3' (by omega),
        char_le_of_toNat_le '3' '9' (by omega)⟩]
    simp only [List.nil_append, List.append_nil, List.cons_append, List.findSome?]
    norm_num [hg3]

theorem parseMDEnd_std (e f : Char) (ds : List Char)
    (he : e.isDigit = true) (hf : f.isDigit = true)
    (hm1 : 1 ≤ dval e * 10 + dval f) (hm2 : dval e * 10 + dval f ≤ 12) :
    parseMDEnd (e :: f :: '-' :: ds) =
      (parseDayEnd ds).map (fun dd => (dval e * 10 + dval f, dd)) := by
  obtain ⟨heE, heB⟩ := isDigit_toNat e he
  obtain ⟨hfE, hfB⟩ := isDigit_toNat f hf
  have c0 : ('0' : Char).toNat = 48 := rfl
  have c1 : ('1' : Char).toNat = 49 := rfl
  have c2 : ('2' : Char).toNat = 50 := rfl
  have c9 : ('9' : Char).toNat = 57 := rfl
  have hecase : dval e = 0 ∨ dval e = 1 := by omega
  rcases hecase with he0 | he1
  · have hec : e = '0' :=
      char_of_toNat e '0' (by rw [char_eq_digit e he 0 he0]; rfl)
    subst hec
    rw [parseMDEnd, monthAlts, monthAlt1, monthAlt2, monthAlt3,
      if_neg (fun hcon => absurd hcon.1 (by decide)),
      if_pos ⟨rfl, char_le_of_toNat_le '1' f (by omega),
        char_le_of_toNat_le f '9' (by omega)⟩,
      if_neg (fun hcon => absurd hcon.1 (by decide))]
    simp only [List.nil_append, List.append_nil, List.findSome?]
    cases hpd : parseDayEnd ds with
    | none => simp [hpd, he0]
    | some dd => simp [hpd, he0]
  · have hec : e = '1' :=
      char_of_toNat e '1' (by rw [char_eq_digit e he 1 he1]; rfl)
    subst hec
    have hfle : dval f ≤ 2 := by omega
    have hfne : f ≠ '-' := by
      intro hfe
      rw [hfe, show ('-' : Char).toNat = 45 from rfl] at hfE
      omega
    rw [parseMDEnd, monthAlts, monthAlt1, monthAlt2, monthAlt3,
      if_pos ⟨rfl, char_le_of_toNat_le '0' f (by omega),
        char_le_of_toNat_le f '2' (by omega)⟩,
      if_neg (fun hcon => absurd hcon.1 (by decide)),
      if_pos ⟨char_le_of_toNat_le '1' '1' (by omega),
        char_le_of_toNat_le '1' '9' (by omega)⟩]
    simp only [List.nil_append, List.append_nil, List.cons_append, List.findSome?]
    cases hpd : parseDayEnd ds with
    | none => simp [hpd, hfne, he1]
    | some dd => simp [hpd, he1]

theorem parse4Digits_cons (a b c d : Char) (rest : List Char)
    (ha : a.isDigit = true) (hb : b.isDigit = true) (hc : c.isDigit = true)
    (hd : d.isDigit = true) :
    parse4Digits (a :: b :: c :: d :: rest) =
      some (dval a * 1000 + dval b * 100 + dval c * 10 + dval d, rest) := by
  rw [parse4Digits, if_pos (by rw [ha, hb, hc, hd]; rfl)]

theorem parseFullDate_std10 (s : String) (a b c d e f g k : Char)
    (hdata : s.data = [a, b, c, d, '-', e, f, '-', g, k])
    (ha : a.isDigit = true) (hb : b.isDigit = true) (hc : c.isDigit = true)
    (hd : d.isDigit = true) (he : e.isDigit = true) (hf : f.isDigit = true)
    (hg : g.isDigit = true) (hk : k.isDigit = true)
    (hy : 1 ≤ dval a * 1000 + dval b * 100 + dval c * 10 + dval d)
    (hm1 : 1 ≤ dval e * 10 + dval f) (hm2 : dval e * 10 + dval f ≤ 12)
    (hd1 : 1 ≤ dval g * 10 + dval k)
    (hd2 : dval g * 10 + dval k ≤
      daysInMonth (dval a * 1000 + dval b * 100 + dval c * 10 + dval d)
        (dval e * 10 + dval f)) :
    parseFullDate s =
      some ⟨dval a * 1000 + dval b * 100 + dval c * 10 + dval d,
        dval e * 10 + dval f, dval g * 10 + dval k⟩ := by
  rw [parseFullDate, hdata, parse4Digits_cons a b c d _ ha hb hc hd]
  show parseAfterYear (dval a * 1000 + dval b * 100 + dval c * 10 + dval d)
      ('-' :: e :: f :: '-' :: g :: k :: []) = _
  rw [parseAfterYear, if_pos rfl, parseMDEnd_std e f [g, k] he hf hm1 hm2,
    parseDayEnd_std g k hg hk hd1 (Nat.le_trans hd2 (daysInMonth_le31 _ _))]
  show (if 1 ≤ dval a * 1000 + dval b * 100 + dval c * 10 + dval d ∧
      dval g * 10 + dval k ≤
        daysInMonth (dval a * 1000 + dval b * 100 + dval c * 10 + dval d)
          (dval e * 10 + dval f) then _ else none) = _
  rw [if_pos ⟨hy, hd2⟩]

theorem stdNorm_normalize (s : String) (dt : Date) (h : stdNorm s = some dt) :
    normalizeReleaseDate s = NormResult.ok dt := by
  rcases stdNorm_inv s dt h with hinv | hinv | hinv
  · obtain ⟨a, b, c, e, heq, ha, hb, hc, he, hdt, hy⟩ := hinv
    subst hdt
    have hlen : s.length = 4 := by
      show s.data.length = 4
      rw [heq]
      rfl
    apply normalize_len4_some s hlen
    have hdata : (s ++ "-01-01").data = [a, b, c, e, '-', '0', '1', '-', '0', '1'] := by
      rw [String.data_append, heq]
      rfl
    have hres := parseFullDate_std10 (s ++ "-01-01") a b c e '0' '1' '0' '1' hdata
      ha hb hc he (by decide) (by decide) (by decide) (by decide) hy
      (by decide) (by decide) (by decide)
      (by
        have h1 : dval '0' * 10 + dval '1' = 1 := rfl
        rw [h1]
        exact daysInMonth_pos _ _)
    exact hres
  · obtain ⟨a, b, c, e, m, n, heq, ha, hb, hc, he, hm, hn, hdt, hy, hma, hmb⟩ := hinv
    subst hdt
    have hlen : s.length = 7 := by
      show s.data.length = 7
      rw [heq]
      rfl
    apply normalize_len7_some s hlen
    have hdata : (s ++ "-01").data = [a, b, c, e, '-', m, n, '-', '0', '1'] := by
      rw [String.data_append, heq]
      rfl
    have hres := parseFullDate_std10 (s ++ "-01") a b c e m n '0' '1' hdata
      ha hb hc he hm hn (by decide) (by decide) hy hma hmb (by decide)
      (by
        have h1 : dval '0' * 10 + dval '1' = 1 := rfl
        rw [h1]
        exact daysInMonth_pos _ _)
    exact hres
  · obtain ⟨a, b, c, e, m, n, g, k, heq, ha, hb, hc, he, hm, hn, hg, hk, hdt,
      hy, hma, hmb, hda, hdb⟩ := hinv
    subst hdt
    apply normalize_parse_some
    exact parseFullDate_std10 s a b c e m n g k heq ha hb hc he hm hn hg hk
      hy hma hmb hda hdb

/-- C1 counterexample: the release-date string "2024-3-5" has length 8
— neither 4, 7 nor 10 — yet the album carrying it is not skipped: the
lenient full-date parse accepts it and its track reaches the output. -/
theorem claim_C1_counterexample :
    ("2024-3-5".length = 4 ∨ "2024-3-5".length = 7 ∨ "2024-3-5".length = 10) = False ∧
    normalizeReleaseDate "2024-3-5" = NormResult.ok ⟨2024, 3, 5⟩ ∧
    albumLen8.release_date = "2024-3-5" ∧
    get_recent_releases cutoff0 50 [artistLen8] = [trackLen8] := by
  refine ⟨?_, by decide, by decide, by decide⟩
  simp only [eq_iff_iff, iff_false]
  decide

/-- C1 (amended): before the cutoff comparison the release-date string
is normalized as follows — any string accepted by the full-date parser
(which allows one- or two-digit month and day fields) is used as
parsed; otherwise a 4-character string is re-parsed with "-01-01"
appended and a 7-character string with "-01" appended (raising when
even that fails); a string of any other length that the full parser
rejects is skipped silently and its album contributes no tracks. -/
theorem claim_C1_normalization (s : String) :
    (∀ d : Date, parseFullDate s = some d →
      normalizeReleaseDate s = NormResult.ok d) ∧
    (s.length = 4 → ∀ d : Date, parseFullDate (s ++ "-01-01") = some d →
      normalizeReleaseDate s = NormResult.ok d) ∧
    (s.length = 4 → parseFullDate (s ++ "-01-01") = none →
      normalizeReleaseDate s = NormResult.raise) ∧
    (s.length = 7 → ∀ d : Date, parseFullDate (s ++ "-01") = some d →
      normalizeReleaseDate s = NormResult.ok d) ∧
    (s.length = 7 → parseFullDate (s ++ "-01") = none →
      normalizeReleaseDate s = NormResult.raise) ∧
    (parseFullDate s = none → s.length ≠ 4 → s.length ≠ 7 →
      normalizeReleaseDate s = NormResult.skip) ∧
    (∀ (n : String) (c : DateTime) (b : Album) (xs ys : List Album)
      (acc : List Track),
      normalizeReleaseDate b.release_date = NormResult.skip →
      processAlbums n c (xs ++ b :: ys) acc = processAlbums n c (xs ++ ys) acc) := by
  refine ⟨?_, ?_, ?_, ?_, ?_, ?_, ?_⟩
  · intro d h
    exact normalize_parse_some s d h
  · intro h4 d h
    exact normalize_len4_some s h4 d h
  · intro h4 h
    exact normalize_len4_none s h4 h
  · intro h7 d h
    exact normalize_len7_some s h7 d h
  · intro h7 h
    exact normalize_len7_none s h7 h
  · intro hs h4ne h7ne
    exact normalize_other_skip s hs h4ne h7ne
  · intro n c b xs ys acc hb
    exact processAlbums_append_skip n c b hb xs ys acc

/-- C1 witness: the amended normalization rules evaluated on concrete
strings of each kind. -/
theorem claim_C1_normalization_witness :
    normalizeReleaseDate "2024" = NormResult.ok ⟨2024, 1, 1⟩ ∧
    normalizeReleaseDate "2024-03" = NormResult.ok ⟨2024, 3, 1⟩ ∧
    normalizeReleaseDate "2024-03-15" = NormResult.ok ⟨2024, 3, 15⟩ ∧
    normalizeReleaseDate "abcd" = NormResult.raise ∧
    normalizeReleaseDate "24-030" = NormResult.skip :=
  ⟨(claim_C1_normalization "2024").2.1 (by decide) ⟨2024, 1, 1⟩ (by decide),
   (claim_C1_normalization "2024-03").2.2.2.1 (by decide) ⟨2024, 3, 1⟩ (by decide),
   (claim_C1_normalization "2024-03-15").1 ⟨2024, 3, 15⟩ (by decide),
   (claim_C1_normalization "abcd").2.2.1 (by decide) (by decide),
   (claim_C1_normalization "24-030").2.2.2.2.2.1 (by decide) (by decide) (by decide)⟩

/-- C2: for every flattened Track Record list the deduplicated output
is exactly the first occurrence (in scan order) of each
case-insensitive (track name, artist name) key, and no two entries of
the final track list share the same lowercased (name, artist) pair. -/
theorem claim_C2_dedup_first_occurrences :
    (∀ l : List Track, dedupTracks l = firstOccurrences l) ∧
    (∀ (cutoff : DateTime) (maxTracks : Nat) (artists : List ArtistData),
      (get_recent_releases cutoff maxTracks artists).Pairwise
        (fun a b => trackKey a ≠ trackKey b)) :=
  ⟨dedupTracks_eq_firstOccurrences, get_recent_releases_key_pairwise⟩

/-- C3 counterexample: with albums dated "2024-3-5" (accepted by the
lenient parser) and "2024-12-25" both in the window, the final list
places the March track first — the raw-string sort puts "2024-3-5"
above "2024-12-25" although its normalized date is strictly earlier, so
the list is not in chronological order of the normalized dates. -/
theorem claim_C3_counterexample :
    get_recent_releases cutoff0 50 [artistC3data] = [trackMar3, trackDec] ∧
    normalizeReleaseDate trackMar3.release_date = NormResult.ok ⟨2024, 3, 5⟩ ∧
    normalizeReleaseDate trackDec.release_date = NormResult.ok ⟨2024, 12, 25⟩ ∧
    dateLt ⟨2024, 3, 5⟩ ⟨2024, 12, 25⟩ = true :=
  ⟨by decide, by decide, by decide, by decide⟩

/-- C3 (amended): the final track list is sorted by the raw
release-date string in descending lexicographic order; the code's
normalization maps every standard zero-padded date string (`YYYY`,
`YYYY-MM`, `YYYY-MM-DD`) to exactly the date the claim describes
(year-only → January 1, year-month → first of month); and whenever the
compared release-date strings are in that standard family the sort
order agrees with chronological order of the normalized date values —
it can disagree only for non-zero-padded dates accepted by the lenient
parser. -/
theorem claim_C3_sorted_normalized (cutoff : DateTime) (maxTracks : Nat)
    (artists : List ArtistData) :
    (get_recent_releases cutoff maxTracks artists).Pairwise trackDescRel ∧
    (∀ (s : String) (d : Date), stdNorm s = some d →
      normalizeReleaseDate s = NormResult.ok d) ∧
    (get_recent_releases cutoff maxTracks artists).Pairwise
      (fun a b => ∀ da db, stdNorm a.release_date = some da →
        stdNorm b.release_date = some db → dateLe db da = true) := by
  have hsorted : (get_recent_releases cutoff maxTracks artists).Pairwise trackDescRel := by
    rw [get_recent_releases]
    exact (sortTracks_pairwise _).sublist (List.take_sublist _ _)
  refine ⟨hsorted, fun s d h => stdNorm_normalize s d h, ?_⟩
  refine List.Pairwise.imp ?_ hsorted
  intro a b hab da db hsa hsb
  exact stdLex_mono a.release_date b.release_date da db hsa hsb hab

/-- C3 witness: the normalization clause evaluated on the concrete
year-month string "2024-03". -/
theorem claim_C3_sorted_normalized_witness :
    normalizeReleaseDate "2024-03" = NormResult.ok ⟨2024, 3, 1⟩ :=
  (claim_C3_sorted_normalized cutoff0 50 []).2.1 "2024-03" ⟨2024, 3, 1⟩ (by decide)

/-- C4: the final track list is sorted by the raw release-date string
in descending lexicographic order; in particular a track dated
"2024-03-15" always precedes a track dated "2024-02-01". -/
theorem claim_C4_sorted_raw_desc (cutoff : DateTime) (maxTracks : Nat)
    (artists : List ArtistData) :
    (get_recent_releases cutoff maxTracks artists).Pairwise trackDescRel ∧
    (∀ i j : Fin (get_recent_releases cutoff maxTracks artists).length,
      i < j →
      ((get_recent_releases cutoff maxTracks artists).get j).release_date = "2024-03-15" →
      ((get_recent_releases cutoff maxTracks artists).get i).release_date ≠ "2024-02-01") := by
  have hsorted : (get_recent_releases cutoff maxTracks artists).Pairwise trackDescRel := by
    rw [get_recent_releases]
    exact (sortTracks_pairwise _).sublist (List.take_sublist _ _)
  refine ⟨hsorted, ?_⟩
  intro i j hij hj hi
  have hrel := List.pairwise_iff_get.mp hsorted i j hij
  rw [trackDescRel, dateDesc, hj, hi] at hrel
  exact absurd hrel (by decide)

/-- C4 witness: in the concrete three-album run the track at position 1
is dated "2024-03-15", so the track at position 0 is not the
"2024-02-01" one. -/
theorem claim_C4_sorted_raw_desc_witness :
    ((get_recent_releases cutoff0 50 [artistC4data]).get ⟨0, by decide⟩).release_date ≠
      "2024-02-01" :=
  (claim_C4_sorted_raw_desc cutoff0 50 [artistC4data]).2 ⟨0, by decide⟩ ⟨1, by decide⟩
    (by decide) (by decide)

/-- C5: the track list returned by `get_recent_releases` never exceeds
the configured maximum track count. -/
theorem claim_C5_max_tracks (cutoff : DateTime) (maxTracks : Nat)
    (artists : List ArtistData) :
    (get_recent_releases cutoff maxTracks artists).length ≤ maxTracks := by
  rw [get_recent_releases]
  exact List.length_take_le _ _

/-- C6: a raising `artist_albums` lookup for one candidate artist only
abandons that artist's scan: the whole run result equals the run on the
candidate list with that artist removed, so tracks of the other artists
are unaffected. -/
theorem claim_C6_failure_isolation (cutoff : DateTime) (maxTracks : Nat)
    (xs ys : List ArtistData) (b : ArtistData) (e : Unit)
    (hb : b.albumsResult = Except.error e) :
    get_recent_releases cutoff maxTracks (xs ++ b :: ys) =
      get_recent_releases cutoff maxTracks (xs ++ ys) := by
  rw [get_recent_releases, get_recent_releases, recentTracksRaw, recentTracksRaw,
    List.foldl_append, List.foldl_append, List.foldl_cons]
  have hstep : scanArtist cutoff (List.foldl (scanArtist cutoff) [] xs) b =
      List.foldl (scanArtist cutoff) [] xs := by
    rw [scanArtist, hb]
  rw [hstep]

/-- C6 witness: with artists A, B, C where B's album lookup raises, the
run result equals the run on A and C alone. -/
theorem claim_C6_failure_isolation_witness :
    get_recent_releases cutoff0 50 [artistA, artistBerr, artistCok] =
      get_recent_releases cutoff0 50 [artistA, artistCok] :=
  claim_C6_failure_isolation cutoff0 50 [artistA] [artistCok] artistBerr () rfl

/-- C7: with zero qualifying tracks the publisher makes no
playlist-creation or append call and the run reports no new releases;
in particular an empty candidate artist set yields an empty final track
list. -/
theorem claim_C7_empty_run :
    (∀ (cutoff : DateTime) (maxTracks : Nat),
      get_recent_releases cutoff maxTracks [] = []) ∧
    runPublishPhase [] = ⟨⟨false, []⟩, true⟩ ∧
    create_playlist [] = ⟨false, []⟩ := by
  refine ⟨fun cutoff maxTracks => ?_, rfl, rfl⟩
  rw [get_recent_releases]
  have hempty : sortTracks (dedupTracks (recentTracksRaw cutoff [])) = [] := rfl
  rw [hempty, List.take_nil]

/-- C8: for a non-empty track list the publisher creates the playlist
and appends the track URIs in order, in consecutive batches of at most
100, using exactly `⌈n/100⌉` append calls; 150 tracks give exactly the
batches 100 and 50. -/
theorem claim_C8_batching (tracks : List Track) (h : tracks ≠ []) :
    (create_playlist tracks).created = true ∧
    (create_playlist tracks).appendCalls.flatten = tracks.map (fun t => t.uri) ∧
    (create_playlist tracks).appendCalls.length = (tracks.length + 99) / 100 ∧
    (∀ b ∈ (create_playlist tracks).appendCalls, b.length ≤ 100) ∧
    (tracks.length = 150 →
      (create_playlist tracks).appendCalls.map List.length = [100, 50]) := by
  have hne : tracks.isEmpty = false := by
    cases tracks with
    | nil => exact absurd rfl h
    | cons t ts => rfl
  have hmapne : tracks.map (fun t => t.uri) ≠ [] := by
    cases tracks with
    | nil => exact absurd rfl h
    | cons t ts => simp
  have hcp : create_playlist tracks = ⟨true, chunks100 (tracks.map (fun t => t.uri))⟩ := by
    rw [create_playlist, hne]
    rfl
  rw [hcp]
  refine ⟨rfl, chunks100_join _, ?_, ?_, ?_⟩
  · rw [chunks100_length _ hmapne, List.length_map]
  · intro b hb
    exact chunksFuel_mem_le100 _ _ b hb
  · intro h150
    apply chunks100_of_length_150
    rw [List.length_map]
    exact h150

/-- C8 witness: the 150-track list is appended as exactly two batches
of sizes 100 and 50. -/
theorem claim_C8_batching_witness :
    (create_playlist tracksC8).appendCalls.map List.length = [100, 50] :=
  (claim_C8_batching tracksC8 (by decide)).2.2.2.2 (by decide)

/-- C9: `get_similar_artists` consults only the first
`min(10, length)` input artists (its output is unchanged by any oracle
that agrees there), its output ids are pairwise distinct and disjoint
from the input ids, and its length is at most the configured maximum. -/
theorem claim_C9_similar_artists
    (related related2 : String → Except Unit (List SimpleArtist))
    (ids : List String) (maxSimilar : Nat)
    (hagree : ∀ aid ∈ ids.take (min 10 ids.length), related aid = related2 aid) :
    get_similar_artists related ids maxSimilar =
      get_similar_artists related2 ids maxSimilar ∧
    ((get_similar_artists related ids maxSimilar).map SimpleArtist.id).Nodup ∧
    (∀ a ∈ get_similar_artists related ids maxSimilar, a.id ∉ ids) ∧
    (get_similar_artists related ids maxSimilar).length ≤ maxSimilar := by
  obtain ⟨h1, h2, h3, h4, h5⟩ := get_similar_artists_inv related ids maxSimilar
  refine ⟨?_, h3, h4, h5⟩
  rw [get_similar_artists, get_similar_artists,
    similarFold_congr related related2 maxSimilar _ _ hagree]

/-- C9 witness: the concrete oracle run stays within the maximum of 20. -/
theorem claim_C9_similar_artists_witness :
    (get_similar_artists relOracle ["f1", "f2", "f3"] 20).length ≤ 20 :=
  (claim_C9_similar_artists relOracle relOracle ["f1", "f2", "f3"] 20
    (fun _ _ => rfl)).2.2.2

/-- C10: a release-date string of length 4 (or 7) that fails even the
padded re-parse — such as "abcd" — makes the normalization itself
raise; the exception aborts the rest of that artist's album scan
(tracks collected from the artist's earlier albums are retained), while
a string of another unparseable length is merely skipped and the scan
continues with the remaining albums. -/
theorem claim_C10_raise_aborts_artist :
    normalizeReleaseDate "abcd" = NormResult.raise ∧
    "abcd".length = 4 ∧
    (∀ (n : String) (c : DateTime) (b : Album) (xs ys : List Album)
      (acc : List Track),
      normalizeReleaseDate b.release_date = NormResult.raise →
      processAlbums n c (xs ++ b :: ys) acc = processAlbums n c xs acc) ∧
    (∀ (n : String) (c : DateTime) (b : Album) (xs ys : List Album)
      (acc : List Track),
      normalizeReleaseDate b.release_date = NormResult.skip →
      processAlbums n c (xs ++ b :: ys) acc = processAlbums n c (xs ++ ys) acc) := by
  refine ⟨by decide, by decide, ?_, ?_⟩
  · intro n c b xs ys acc hb
    exact processAlbums_append_raise n c b hb xs ys acc
  · intro n c b xs ys acc hb
    exact processAlbums_append_skip n c b hb xs ys acc

/-- C10 witness: with albums [March, "abcd", February] the artist scan
equals the scan of [March] alone — the February album is never reached. -/
theorem claim_C10_raise_aborts_artist_witness :
    processAlbums "ArtistR" cutoff0 [albMar, albumRaise, albFeb] [] =
      processAlbums "ArtistR" cutoff0 [albMar] [] :=
  (claim_C10_raise_aborts_artist).2.2.1 "ArtistR" cutoff0 albumRaise [albMar] [albFeb]
    [] (by decide)

end MusicDiscovery
